import Mathlib

/-!
Shallow embedding of `src/installer.py` (Aurora SectorFiles link-setup engine).

Modelling conventions:
* A filesystem path is a list of name components (`Path`); `os.path.join a b`
  is `a ++ [b]`, `os.path.dirname` is `List.dropLast`.  Paths are taken to be
  already absolute, so `os.path.abspath` is the identity.
* The filesystem is a finite tree (`FSTree`) of named entries.  Junction /
  symlink nodes are not distinguished from what they point at, so
  `os.path.islink` is modelled as constantly false (the code uses it only to
  choose between `shutil.rmtree` and `os.remove` when force-removing).
* Outcomes of OS calls whose success depends on the host (hard link, symlink,
  `mklink`, junction creation, removal, copy) are supplied by an environment
  of oracles (`Env`).  Success or failure of removal and copy only affects the
  log text in the source, never control flow; the oracles are kept for
  faithfulness of statements about them.
* Mutating OS calls are recorded as a trace of operations (`FSOp`), in the
  order the source performs them.  Existence checks are evaluated against the
  initial filesystem, except for the one place where the source re-checks a
  path it has just removed (`link_top_level_files_once` force-removes `dst`
  and `_create_file_link` then re-checks `os.path.exists(dst)`): there the
  tree is updated by `fsRemove` when the removal oracle reports success.
* Exceptions (`FileExistsError`, `FileNotFoundError`) are modelled with
  `Except PyErr`; `run`'s outer `try/except Exception` catches them.
* Python's `str.lower` is modelled on the ASCII fragment by `Char.toLower`
  (all names the program compares against are ASCII).
-/

namespace Installer

abbrev Path := List String

/-- Filesystem entry: a regular file or a directory with an ordered list of
named children (the order models the OS enumeration order of `os.listdir` /
`os.walk`). -/
inductive FSTree where
  | file : FSTree
  | dir : List (String × FSTree) → FSTree

/-- Resolve a path in a tree, following components in order. -/
def lookup : Path → FSTree → Option FSTree
  | [], t => some t
  | _ :: _, .file => none
  | n :: rest, .dir cs =>
    match cs.find? (fun e => e.1 == n) with
    | some e => lookup rest e.2
    | none => none

/-- Models `os.path.isdir`. -/
def isdir (fs : FSTree) (p : Path) : Bool :=
  match lookup p fs with
  | some (.dir _) => true
  | _ => false

/-- Models `os.path.isfile`. -/
def isfile (fs : FSTree) (p : Path) : Bool :=
  match lookup p fs with
  | some .file => true
  | _ => false

/-- Models `os.path.exists`. -/
def pathExists (fs : FSTree) (p : Path) : Bool :=
  (lookup p fs).isSome

/-- Models `os.listdir` (empty on a non-directory, which the source never hits). -/
def listdir (fs : FSTree) (p : Path) : List String :=
  match lookup p fs with
  | some (.dir cs) => cs.map Prod.fst
  | _ => []

/-- Names of the immediate subdirectories of a children list. -/
def dirNames (cs : List (String × FSTree)) : List String :=
  (cs.filter (fun e => match e.2 with | .dir _ => true | _ => false)).map Prod.fst

/-- Names of the immediate regular files of a children list. -/
def fileNames (cs : List (String × FSTree)) : List String :=
  (cs.filter (fun e => match e.2 with | .file => true | _ => false)).map Prod.fst

mutual
/-- Models `os.walk` from a node already resolved: top-down, root entry first, then
each subdirectory in enumeration order. -/
def walkAux : FSTree → Path → List (Path × List String × List String)
  | .file, _ => []
  | .dir cs, p => (p, dirNames cs, fileNames cs) :: walkChildren cs p
/-- Walk every child of a directory (files contribute nothing). -/
def walkChildren : List (String × FSTree) → Path → List (Path × List String × List String)
  | [], _ => []
  | (n, t) :: rest, p => walkAux t (p ++ [n]) ++ walkChildren rest p
end

/-- Models `os.walk root`: empty when `root` is not a directory. -/
def walk (fs : FSTree) (root : Path) : List (Path × List String × List String) :=
  match lookup root fs with
  | some t => walkAux t root
  | none => []

/-- Remove the entry at a path (models a successful `os.remove`). -/
def fsRemove : FSTree → Path → FSTree
  | t, [] => t
  | .file, _ => .file
  | .dir cs, [n] => .dir (cs.filter (fun e => !(e.1 == n)))
  | .dir cs, n :: rest =>
    .dir (cs.map (fun e => if e.1 == n then (e.1, fsRemove e.2 rest) else e))

/-- Models `s.lower()` as a character list (ASCII fragment of Python `str.lower`). -/
def lowerStr (s : String) : List Char := s.toList.map Char.toLower

/-- Models `s.lower().endswith(suffix)` for an already-lowercase ASCII suffix. -/
def lowerEndsWith (s : String) (suffix : List Char) : Bool :=
  suffix.isSuffixOf (lowerStr s)

/-- The `.isc` extension as characters. -/
def ext_isc : List Char := ['.', 'i', 's', 'c']

/-- The `.clr` extension as characters. -/
def ext_clr : List Char := ['.', 'c', 'l', 'r']

/-- The set `FILES_EXTS_TO_LINK_ONCE`, holding the extensions `.isc` and `.clr`. -/
def FILES_EXTS_TO_LINK_ONCE : List (List Char) := [ext_isc, ext_clr]

/-- Models `f.lower().endswith('.isc')`, the content test used by
`find_sectorfile_dir`. -/
def endswith_isc (f : String) : Bool := lowerEndsWith f ext_isc

/-- Index of the last `'.'` in a character list, if any. -/
def last_dot_index (l : List Char) : Option Nat :=
  match l.reverse.findIdx? (fun c => c == '.') with
  | some j => some (l.length - 1 - j)
  | none => none

/-- The extension part of `os.path.splitext(name)` for a bare file name:
the suffix from the last dot, unless every character before that dot is
itself a dot (leading-dot names have no extension). -/
def splitext_ext (name : String) : List Char :=
  match last_dot_index name.toList with
  | none => []
  | some i =>
    if (name.toList.take i).any (fun c => !(c == '.')) then name.toList.drop i else []

/-- Models `ext.lower() in FILES_EXTS_TO_LINK_ONCE`, the selection test of
`link_top_level_files_once`. -/
def ext_selected (name : String) : Bool :=
  FILES_EXTS_TO_LINK_ONCE.contains ((splitext_ext name).map Char.toLower)

/-- Host-environment oracles for the OS calls whose success is outside the
program's control.  `removeOk` and `copyOk` influence only log output in the
source, never control flow. -/
structure Env where
  hardlinkOk : Path → Path → Bool
  symlinkOk : Path → Path → Bool
  mklinkHOk : Path → Path → Bool
  junctionOk : Path → Path → Bool
  removeOk : Path → Bool
  copyOk : Path → Path → Bool

/-- One attempted mutating OS call, with the paths it was invoked on
(`src`/`dst` order as in the source). -/
inductive FSOp where
  | remove : Path → FSOp
  | rmtree : Path → FSOp
  | makedirs : Path → FSOp
  | hardlink : Path → Path → FSOp
  | symlink : Path → Path → FSOp
  | mklinkH : Path → Path → FSOp
  | junction : Path → Path → FSOp
  | copy : Path → Path → FSOp
deriving DecidableEq

/-- The path an operation writes to (creates, removes or overwrites). -/
def FSOp.written : FSOp → Path
  | .remove p => p
  | .rmtree p => p
  | .makedirs p => p
  | .hardlink _ d => d
  | .symlink _ d => d
  | .mklinkH _ d => d
  | .junction l _ => l
  | .copy _ d => d

/-- Whether an operation is one of the three per-file link mechanisms. -/
def FSOp.isMechanism : FSOp → Bool
  | .hardlink _ _ => true
  | .symlink _ _ => true
  | .mklinkH _ _ => true
  | _ => false

/-- Whether an operation is a content copy. -/
def FSOp.isCopy : FSOp → Bool
  | .copy _ _ => true
  | _ => false

/-- Whether an operation is a directory-junction creation. -/
def FSOp.isJunction : FSOp → Bool
  | .junction _ _ => true
  | _ => false

/-- Python exceptions the embedded code raises. -/
inductive PyErr where
  | fileExists : Path → PyErr
  | notFound : Path → PyErr
deriving DecidableEq

/-- Models `_create_file_link(src, dst)`: remove a pre-existing destination
(best effort), then try hard link, symlink, `mklink /H` in order, stopping at
the first success; returns the success flag and the trace of attempted calls.
The layer itself never copies. -/
def create_file_link (env : Env) (fs : FSTree) (src dst : Path) : Bool × List FSOp :=
  let pre : List FSOp := if pathExists fs dst then [.remove dst] else []
  if env.hardlinkOk src dst then (true, pre ++ [.hardlink src dst])
  else if env.symlinkOk src dst then (true, pre ++ [.hardlink src dst, .symlink src dst])
  else if env.mklinkHOk src dst then
    (true, pre ++ [.hardlink src dst, .symlink src dst, .mklinkH src dst])
  else (false, pre ++ [.hardlink src dst, .symlink src dst, .mklinkH src dst])

/-- The fixed priority list of conventional folder names. -/
def conventional_names : List String :=
  ["SectorFiles", "Sectorfile", "SectorFile", "SectorFile-MAIN"]

/-- Models the walk-based content test of `find_sectorfile_dir`. -/
def any_isc_under (fs : FSTree) (root : Path) : Bool :=
  (walk fs root).any (fun e => e.2.2.any endswith_isc)

/-- The named-candidate loop of `find_sectorfile_dir`. -/
def named_search (fs : FSTree) (root : Path) (accept_empty_named : Bool) :
    List String → Option Path
  | [] => none
  | n :: rest =>
    let cand := root ++ [n]
    if isdir fs cand then
      if isdir fs (cand ++ ["Include"]) || any_isc_under fs cand then some cand
      else if accept_empty_named then some cand
      else named_search fs root accept_empty_named rest
    else named_search fs root accept_empty_named rest

/-- The final fallback walk of `find_sectorfile_dir`: first walked directory
that has an immediate `Include` subdirectory or an immediate `.isc` file. -/
def fallback_walk (fs : FSTree) (root : Path) : Option Path :=
  (walk fs root).findSome? (fun e =>
    if e.2.1.contains "Include" then some e.1
    else if e.2.2.any endswith_isc then some e.1
    else none)

/-- Models `find_sectorfile_dir(root, accept_empty_named)`. -/
def find_sectorfile_dir (fs : FSTree) (root : Path) (accept_empty_named : Bool) :
    Except PyErr Path :=
  if isdir fs root && (isdir fs (root ++ ["Include"]) || any_isc_under fs root) then
    .ok root
  else
    match named_search fs root accept_empty_named conventional_names with
    | some p => .ok p
    | none =>
      match fallback_walk fs root with
      | some p => .ok p
      | none => .error (.notFound root)

/-- One alias iteration of `create_conew_junctions`: on an existing link path,
force-remove it (`rmtree` for a plain directory, `remove` otherwise; failures
only logged) or raise `FileExistsError` when `force` is false; then invoke the
junction primitive.  Returns the created-link list and the trace. -/
def conew_alias (env : Env) (fs : FSTree) (src_include_conew target_include_dir : Path)
    (force : Bool) (name : String) : Except PyErr (List Path × List FSOp) :=
  let link_path := target_include_dir ++ [name]
  let pre : Except PyErr (List FSOp) :=
    if pathExists fs link_path then
      if force then
        .ok [if isdir fs link_path then FSOp.rmtree link_path else FSOp.remove link_path]
      else .error (.fileExists link_path)
    else .ok []
  match pre with
  | .error e => .error e
  | .ok t =>
    let tr := t ++ [FSOp.junction link_path src_include_conew]
    .ok (if env.junctionOk link_path src_include_conew then [link_path] else [], tr)

/-- Models `create_conew_junctions(src_include_conew, target_include_dir, force)`:
ensure the target directory exists, then process the aliases `COnew` and
`COnew_2` in order; a raised `FileExistsError` aborts with the trace so far. -/
def create_conew_junctions (env : Env) (fs : FSTree)
    (src_include_conew target_include_dir : Path) (force : Bool) :
    Except PyErr (List Path) × List FSOp :=
  let t0 : List FSOp := [.makedirs target_include_dir]
  match conew_alias env fs src_include_conew target_include_dir force "COnew" with
  | .error e => (.error e, t0)
  | .ok (c1, tr1) =>
    match conew_alias env fs src_include_conew target_include_dir force "COnew_2" with
    | .error e => (.error e, t0 ++ tr1)
    | .ok (c2, tr2) => (.ok (c1 ++ c2), t0 ++ tr1 ++ tr2)

/-- The body of `link_top_level_files_once` for one directory entry: skip
non-files and unrecognized extensions; skip an existing destination unless
`force` (then best-effort remove it first); attempt the link layer and fall
back to a copy on failure; contributes 1 to the count whenever the link/copy
stage was reached. -/
def link_file_step (env : Env) (fs : FSTree) (src_main sectorfile_dir : Path)
    (force : Bool) (name : String) : Nat × List FSOp :=
  let src_path := src_main ++ [name]
  if !(isfile fs src_path) then (0, [])
  else if !(ext_selected name) then (0, [])
  else
    let dst := sectorfile_dir ++ [name]
    if pathExists fs dst && !force then (0, [])
    else
      let pre : List FSOp := if pathExists fs dst then [.remove dst] else []
      let fs' := if pathExists fs dst && env.removeOk dst then fsRemove fs dst else fs
      let r := create_file_link env fs' src_path dst
      let tc : List FSOp := if r.1 then [] else [.copy src_path dst]
      (1, pre ++ r.2 ++ tc)

/-- Fold of `link_file_step` over the enumerated entries, accumulating the
count and the trace in order. -/
def link_files_go (env : Env) (fs : FSTree) (src_main sectorfile_dir : Path)
    (force : Bool) : List String → Nat × List FSOp
  | [] => (0, [])
  | name :: rest =>
    let h := link_file_step env fs src_main sectorfile_dir force name
    let r := link_files_go env fs src_main sectorfile_dir force rest
    (h.1 + r.1, h.2 ++ r.2)

/-- Models `link_top_level_files_once(src_main, sectorfile_dir, force)`. -/
def link_top_level_files_once (env : Env) (fs : FSTree)
    (src_main sectorfile_dir : Path) (force : Bool) : Nat × List FSOp :=
  link_files_go env fs src_main sectorfile_dir force (listdir fs src_main)

/-- Resolution of the install root: drop the last component when the input
ends (case-insensitively) in `.exe`. -/
def aurora_root (aurora : Path) : Path :=
  match aurora.getLast? with
  | some s => if lowerEndsWith s (['.', 'e', 'x', 'e']) then aurora.dropLast else aurora
  | none => aurora

/-- The repo-main resolution step of `run`: the repo path itself when it is a
directory containing `Include`, else `repo/SectorFile-MAIN` when that is a
directory. -/
def resolve_src_main (fs : FSTree) (repo : Path) : Option Path :=
  if isdir fs repo && isdir fs (repo ++ ["Include"]) then some repo
  else if isdir fs (repo ++ ["SectorFile-MAIN"]) then some (repo ++ ["SectorFile-MAIN"])
  else none

/-- Models `run(aurora, repo, force, dry_run)`: returns the result code and the trace
of attempted mutating OS calls.  The outer `try/except` maps any raised
exception (discovery failure, alias `FileExistsError`) to code 10. -/
def run (env : Env) (fs : FSTree) (aurora repo : Path) (force dry_run : Bool) :
    Nat × List FSOp :=
  match find_sectorfile_dir fs (aurora_root aurora) true with
  | .error _ => (10, [])
  | .ok sectorfile_dir =>
    match resolve_src_main fs repo with
    | none => (2, [])
    | some src_main =>
      let src_include_conew := src_main ++ ["Include", "COnew"]
      if !(isdir fs src_include_conew) then (3, [])
      else
        let target_include_dir := sectorfile_dir ++ ["Include"]
        if dry_run then (0, [])
        else
          let t0 : List FSOp := [.makedirs target_include_dir]
          match create_conew_junctions env fs src_include_conew target_include_dir force with
          | (.error _, tj) => (10, t0 ++ tj)
          | (.ok _, tj) =>
            let lf := link_top_level_files_once env fs src_main sectorfile_dir force
            (0, t0 ++ tj ++ lf.2)

/-! ### Concrete hosts and filesystems used as test inputs -/

/-- Host on which every link/junction/removal/copy call succeeds. -/
def envAll : Env where
  hardlinkOk := fun _ _ => true
  symlinkOk := fun _ _ => true
  mklinkHOk := fun _ _ => true
  junctionOk := fun _ _ => true
  removeOk := fun _ => true
  copyOk := fun _ _ => true

/-- Host on which every link/junction/removal/copy call fails. -/
def envNone : Env where
  hardlinkOk := fun _ _ => false
  symlinkOk := fun _ _ => false
  mklinkHOk := fun _ _ => false
  junctionOk := fun _ _ => false
  removeOk := fun _ => false
  copyOk := fun _ _ => false

/-- Valid install `A` whose destination alias `A/Include/COnew` already
exists, next to a valid repo `R`. -/
def fsAliasTaken : FSTree :=
  .dir [("A", .dir [("Include", .dir [("COnew", .dir [])])]),
        ("R", .dir [("Include", .dir [("COnew", .dir [])]), ("a.isc", .file)])]

/-- Valid install `A` whose destination alias `A/Include/COnew_2` (but not
`COnew`) already exists, next to a valid repo `R`. -/
def fsAlias2Taken : FSTree :=
  .dir [("A", .dir [("Include", .dir [("COnew_2", .dir [])])]),
        ("R", .dir [("Include", .dir [("COnew", .dir [])]), ("a.isc", .file)])]

/-- Valid install `A` with a free destination, next to a valid repo `R`. -/
def fsGood : FSTree :=
  .dir [("A", .dir [("Include", .dir [])]),
        ("R", .dir [("Include", .dir [("COnew", .dir [])]), ("a.isc", .file)])]

/-- A source directory `s` holding one `.isc` file and an empty target `d`. -/
def fsLinkOnly : FSTree :=
  .dir [("s", .dir [("a.isc", .file)]), ("d", .dir [])]

/-- A root `r` whose only content is a `.clr` file. -/
def fsClrOnly : FSTree :=
  .dir [("r", .dir [("x.clr", .file)])]

/-- A root `r` whose only content is a `.Clr` file (mixed case). -/
def fsClrCase : FSTree :=
  .dir [("r", .dir [("x.Clr", .file)])]

/-- A root `r` with both an immediate `Include` child and a conventional
`SectorFiles` child that contains `Include`. -/
def fsRootInclude : FSTree :=
  .dir [("r", .dir [("Include", .dir []), ("SectorFiles", .dir [("Include", .dir [])])])]

/-- A root `r` whose only child is `SectorFiles` containing `Include`. -/
def fsNamedOnly : FSTree :=
  .dir [("r", .dir [("SectorFiles", .dir [("Include", .dir [])])])]

/-- A root `r` with a `.isc` file two levels down. -/
def fsIscDeep : FSTree :=
  .dir [("r", .dir [("sub", .dir [("B.ISC", .file)])])]

/-- An empty filesystem root. -/
def fsEmpty : FSTree := .dir []

/-- A root `a` holding only an unrelated text file. -/
def fsPlain : FSTree := .dir [("a", .dir [("foo.txt", .file)])]

/-- A single tree `R` that is at once a valid repo main folder and a valid
install sectorfile folder (install path and repo path aliased). -/
def fsAliased : FSTree :=
  .dir [("R", .dir [("Include", .dir [("COnew", .dir [])]), ("a.isc", .file)])]

/-- Whether folder discovery succeeds (no `FileNotFoundError` raised). -/
def discovery_ok (fs : FSTree) (root : Path) : Bool :=
  match find_sectorfile_dir fs root true with
  | .ok _ => true
  | .error _ => false

/-! ### Helper lemmas -/

/-- Resolving a concatenated path composes the two resolutions. -/
theorem lookup_append (p q : Path) (fs : FSTree) :
    lookup (p ++ q) fs = (lookup p fs).bind (lookup q) := by
  induction p generalizing fs with
  | nil => simp [lookup]
  | cons n rest ih =>
    cases fs with
    | file => simp [lookup]
    | dir cs =>
      simp only [List.cons_append, lookup]
      cases cs.find? (fun e => e.1 == n) with
      | none => simp
      | some e => simp [ih]

/-- The per-file count of `link_file_step` is 1 exactly on entries that reach
the link/copy attempt stage. -/
theorem link_file_step_count (env : Env) (fs : FSTree) (sm dir : Path)
    (force : Bool) (name : String) :
    (link_file_step env fs sm dir force name).1 =
      (if isfile fs (sm ++ [name]) && ext_selected name &&
        (!(pathExists fs (dir ++ [name])) || force) then 1 else 0) := by
  unfold link_file_step
  cases hf : isfile fs (sm ++ [name]) <;> cases he : ext_selected name <;>
    cases hp : pathExists fs (dir ++ [name]) <;> cases force <;> simp [hf, he, hp]

/-- The fold `link_files_go` counts exactly the entries that reach the link/copy
attempt stage. -/
theorem link_go_count (env : Env) (fs : FSTree) (sm dir : Path) (force : Bool)
    (l : List String) :
    (link_files_go env fs sm dir force l).1 =
      l.countP (fun name => isfile fs (sm ++ [name]) && ext_selected name &&
        (!(pathExists fs (dir ++ [name])) || force)) := by
  induction l with
  | nil => simp [link_files_go]
  | cons a t ih =>
    simp only [link_files_go, List.countP_cons, ih, link_file_step_count]
    cases h : (isfile fs (sm ++ [a]) && ext_selected a &&
        (!(pathExists fs (dir ++ [a])) || force)) <;> simp [h, Nat.add_comm]

/-! ### Claim C2 -/

/-- C2 counterexample: on a host where every link mechanism fails and the
fallback copy also fails, the single recognized `.isc` file still contributes
1 to the processed count returned by `link_top_level_files_once` — the claim
says the count is not incremented for such a file, which would make it 0
here. -/
theorem c2_counterexample :
    envNone.copyOk ["s", "a.isc"] ["d", "a.isc"] = false ∧
    (create_file_link envNone fsLinkOnly ["s", "a.isc"] ["d", "a.isc"]).1 = false ∧
    FSOp.copy ["s", "a.isc"] ["d", "a.isc"]
      ∈ (link_top_level_files_once envNone fsLinkOnly ["s"] ["d"] false).2 ∧
    (link_top_level_files_once envNone fsLinkOnly ["s"] ["d"] false).1 = 1 := by
  refine ⟨rfl, rfl, ?_, rfl⟩
  decide

/-- C2 (amended): the count returned by `link_top_level_files_once` includes
every enumerated regular file with a recognized extension that reached the
link/copy attempt stage (i.e. was not skipped as a pre-existing destination
without `force`), irrespective of whether the link mechanisms or the fallback
copy succeeded. -/
theorem c2_count_counts_all_attempted (env : Env) (fs : FSTree) (sm dir : Path)
    (force : Bool) :
    (link_top_level_files_once env fs sm dir force).1 =
      (listdir fs sm).countP (fun name => isfile fs (sm ++ [name]) &&
        ext_selected name && (!(pathExists fs (dir ++ [name])) || force)) :=
  link_go_count env fs sm dir force (listdir fs sm)

/-! ### Claim C3 -/

/-- C3 counterexample: `.clr` is one of the two recognized reference-data
extensions, and `fsClrOnly` has a `.clr` file directly beneath its root `r`,
yet `find_sectorfile_dir` does not return `r` — it fails with `NotFound`,
because its content checks look for `.isc` only. -/
theorem c3_counterexample :
    ext_selected "x.clr" = true ∧
    walk fsClrOnly ["r"] = [(["r"], [], ["x.clr"])] ∧
    find_sectorfile_dir fsClrOnly ["r"] true = .error (.notFound ["r"]) := by
  exact ⟨rfl, rfl, rfl⟩

/-- C3 (amended): for every root directory that contains, anywhere beneath
it, a file whose lowercased name ends in `.isc` — the only one of the two
recognized extensions that discovery's content checks look for —
`find_sectorfile_dir` returns the root unchanged (step 1 of the heuristic);
a `.clr` file does not trigger this step. -/
theorem c3_isc_anywhere_returns_root (fs : FSTree) (root : Path) (accept : Bool)
    (hd : isdir fs root = true)
    (hf : ∃ e ∈ walk fs root, ∃ f ∈ e.2.2, endswith_isc f = true) :
    find_sectorfile_dir fs root accept = .ok root := by
  have hisc : any_isc_under fs root = true := by
    rcases hf with ⟨e, he, f, hfm, hext⟩
    unfold any_isc_under
    rw [List.any_eq_true]
    exact ⟨e, he, by rw [List.any_eq_true]; exact ⟨f, hfm, hext⟩⟩
  unfold find_sectorfile_dir
  simp [hd, hisc]

/-- C3 witness: a concrete root with a `.ISC` file two levels down is
returned unchanged. -/
theorem c3_witness :
    isdir fsIscDeep ["r"] = true ∧
    (∃ e ∈ walk fsIscDeep ["r"], ∃ f ∈ e.2.2, endswith_isc f = true) ∧
    find_sectorfile_dir fsIscDeep ["r"] true = .ok ["r"] :=
  ⟨rfl, ⟨(["r", "sub"], [], ["B.ISC"]), by decide, "B.ISC", by decide, by decide⟩,
    c3_isc_anywhere_returns_root fsIscDeep ["r"] true rfl
      ⟨(["r", "sub"], [], ["B.ISC"]), by decide, "B.ISC", by decide, by decide⟩⟩

/-! ### Claim C4 -/

/-- With `accept_empty_named = true` (as the orchestrator always passes), the
named-candidate loop returns the first conventional name whose directory
exists, with no content validation. -/
theorem named_search_accept_eq_find (fs : FSTree) (root : Path) (l : List String) :
    named_search fs root true l =
      (l.find? (fun n => isdir fs (root ++ [n]))).map (fun n => root ++ [n]) := by
  induction l with
  | nil => simp [named_search]
  | cons n rest ih =>
    unfold named_search
    cases h : isdir fs (root ++ [n]) with
    | false =>
      rw [List.find?_cons_of_neg _ (by simp [h])]
      simpa [h] using ih
    | true =>
      rw [List.find?_cons_of_pos _ (by simp [h])]
      cases h2 : (isdir fs (root ++ [n] ++ ["Include"]) || any_isc_under fs (root ++ [n])) <;>
        simp [h, h2]

/-- C4 counterexample: `fsRootInclude`'s root `r` has a conventional child
`SectorFiles` containing the marker `Include`, yet `find_sectorfile_dir`
returns the root itself (step 1 fires because `r` also has an immediate
`Include` child), not the named directory. -/
theorem c4_counterexample :
    isdir fsRootInclude ["r", "SectorFiles"] = true ∧
    isdir fsRootInclude ["r", "SectorFiles", "Include"] = true ∧
    find_sectorfile_dir fsRootInclude ["r"] true = .ok ["r"] ∧
    (["r"] : Path) ≠ ["r", "SectorFiles"] := by
  exact ⟨rfl, rfl, rfl, by decide⟩

/-- C4 (amended): provided the root itself does not trigger step 1 of the
heuristic (no immediate `Include` child and no `.isc` file anywhere beneath
it), `find_sectorfile_dir` returns `root/<n>` where `n` is the first
conventional name (in the fixed order) whose directory exists — in
particular, when the only conventional-named child contains the marker
`Include`, that child is returned, never the root or a deeper directory. -/
theorem c4_named_dir_returned (fs : FSTree) (root : Path) (n : String)
    (hInc : isdir fs (root ++ ["Include"]) = false)
    (hIsc : any_isc_under fs root = false)
    (hfind : conventional_names.find? (fun m => isdir fs (root ++ [m])) = some n) :
    find_sectorfile_dir fs root true = .ok (root ++ [n]) := by
  unfold find_sectorfile_dir
  rw [named_search_accept_eq_find, hfind]
  simp [hInc, hIsc]

/-- C4 witness: a root whose only child is `SectorFiles` containing
`Include` resolves to that child. -/
theorem c4_witness :
    isdir fsNamedOnly (["r"] ++ ["Include"]) = false ∧
    any_isc_under fsNamedOnly ["r"] = false ∧
    conventional_names.find? (fun m => isdir fsNamedOnly (["r"] ++ [m])) = some "SectorFiles" ∧
    find_sectorfile_dir fsNamedOnly ["r"] true = .ok ["r", "SectorFiles"] :=
  ⟨rfl, rfl, rfl, c4_named_dir_returned fsNamedOnly ["r"] "SectorFiles" rfl rfl rfl⟩

/-! ### Claim C5 -/

/-- C5 counterexample: on an empty filesystem the repo main folder cannot be
resolved, yet `run` returns 10, not 2 — discovery fails first and its
exception maps to the generic unhandled-error code, so "2 if and only if the
repo main folder cannot be resolved" does not hold. -/
theorem c5_counterexample :
    resolve_src_main fsEmpty ["R"] = none ∧
    (run envAll fsEmpty ["A"] ["R"] false false).1 = 10 ∧
    (run envAll fsEmpty ["A"] ["R"] false false).1 ≠ 2 := by
  exact ⟨rfl, rfl, by decide⟩

/-- C5 (amended): `run` terminates with exactly one of the codes
{0, 2, 3, 10}; 2 if and only if discovery succeeded and the repo main folder
cannot be resolved; 3 if and only if discovery succeeded, the repo resolved,
and the shared source directory `Include/COnew` is missing; 10 whenever
discovery fails; and 0 for a dry-run that passes all structural checks. -/
theorem c5_exit_codes (env : Env) (fs : FSTree) (aurora repo : Path)
    (force dry_run : Bool) :
    ((run env fs aurora repo force dry_run).1 = 0 ∨
     (run env fs aurora repo force dry_run).1 = 2 ∨
     (run env fs aurora repo force dry_run).1 = 3 ∨
     (run env fs aurora repo force dry_run).1 = 10) ∧
    ((run env fs aurora repo force dry_run).1 = 2 ↔
      discovery_ok fs (aurora_root aurora) = true ∧ resolve_src_main fs repo = none) ∧
    ((run env fs aurora repo force dry_run).1 = 3 ↔
      discovery_ok fs (aurora_root aurora) = true ∧
      ∃ sm, resolve_src_main fs repo = some sm ∧
        isdir fs (sm ++ ["Include", "COnew"]) = false) ∧
    (discovery_ok fs (aurora_root aurora) = false →
      (run env fs aurora repo force dry_run).1 = 10) ∧
    (dry_run = true → discovery_ok fs (aurora_root aurora) = true →
      ∀ sm, resolve_src_main fs repo = some sm →
        isdir fs (sm ++ ["Include", "COnew"]) = true →
        (run env fs aurora repo force dry_run).1 = 0) ∧
    (dry_run = false →
      ∀ sd sm created, find_sectorfile_dir fs (aurora_root aurora) true = .ok sd →
        resolve_src_main fs repo = some sm →
        isdir fs (sm ++ ["Include", "COnew"]) = true →
        (create_conew_junctions env fs (sm ++ ["Include", "COnew"])
          (sd ++ ["Include"]) force).1 = .ok created →
        (run env fs aurora repo force dry_run).1 = 0) := by
  cases hf : find_sectorfile_dir fs (aurora_root aurora) true with
  | error e =>
    have hd : discovery_ok fs (aurora_root aurora) = false := by
      unfold discovery_ok; rw [hf]
    have hc : (run env fs aurora repo force dry_run).1 = 10 := by
      simp [run, hf]
    simp [hc, hd, hf]
  | ok sd =>
    have hd : discovery_ok fs (aurora_root aurora) = true := by
      unfold discovery_ok; rw [hf]
    cases hr : resolve_src_main fs repo with
    | none =>
      have hc : (run env fs aurora repo force dry_run).1 = 2 := by
        simp [run, hf, hr]
      simp [hc, hd, hf, hr]
    | some sm =>
      cases hco : isdir fs (sm ++ ["Include", "COnew"]) with
      | false =>
        have hc : (run env fs aurora repo force dry_run).1 = 3 := by
          simp [run, hf, hr, hco]
        simp [hc, hd, hf, hr, hco]
        intro _ sd' sm' created h1 h2 h3
        rw [← h2, hco] at h3
        exact Bool.noConfusion h3
      | true =>
        cases dry_run with
        | true =>
          have hc : (run env fs aurora repo force true).1 = 0 := by
            simp [run, hf, hr, hco]
          simp [hc, hd, hf, hr, hco]
        | false =>
          cases hj : create_conew_junctions env fs (sm ++ ["Include", "COnew"])
              (sd ++ ["Include"]) force with
          | mk res tr =>
            cases res with
            | error e2 =>
              have hc : (run env fs aurora repo force false).1 = 10 := by
                simp [run, hf, hr, hco, hj]
              simp [hc, hd, hf, hr, hco, hj]
              intro sd' sm' created h1 h2 h3 h4
              subst h1
              subst h2
              rw [hj] at h4
              exact Except.noConfusion h4
            | ok created =>
              have hc : (run env fs aurora repo force false).1 = 0 := by
                simp [run, hf, hr, hco, hj]
              simp [hc, hd, hf, hr, hco, hj]

/-- C5 witness: on a concrete valid layout, both a dry-run and a non-dry
exception-free run return 0 via the characterization. -/
theorem c5_witness :
    (run envAll fsGood ["A"] ["R"] false true).1 = 0 ∧
    (run envAll fsGood ["A"] ["R"] false false).1 = 0 :=
  ⟨(c5_exit_codes envAll fsGood ["A"] ["R"] false true).2.2.2.2.1 rfl rfl ["R"] rfl rfl,
   (c5_exit_codes envAll fsGood ["A"] ["R"] false false).2.2.2.2.2 rfl ["A"] ["R"]
      [["A", "Include", "COnew"], ["A", "Include", "COnew_2"]] rfl rfl rfl rfl⟩

/-! ### Claim C6 -/

/-- Resolving a single-component path in a directory finds a child entry. -/
theorem lookup_singleton_child (cs : List (String × FSTree)) (n : String) (t : FSTree)
    (h : lookup [n] (FSTree.dir cs) = some t) :
    ∃ e ∈ cs, e.1 = n ∧ e.2 = t := by
  unfold lookup at h
  cases hfind : cs.find? (fun e => e.1 == n) with
  | none => rw [hfind] at h; exact Option.noConfusion h
  | some e =>
    rw [hfind] at h
    have hmem := List.mem_of_find?_eq_some hfind
    have hn := List.find?_some hfind
    refine ⟨e, hmem, by simpa using hn, ?_⟩
    unfold lookup at h
    exact Option.some.inj h

/-- An existing child directory forces its parent to be a directory whose
children list records it. -/
theorem isdir_child_structure (fs : FSTree) (p : Path) (n : String)
    (h : isdir fs (p ++ [n]) = true) :
    ∃ cs, lookup p fs = some (.dir cs) ∧
      ∃ e ∈ cs, e.1 = n ∧ ∃ cs', e.2 = FSTree.dir cs' := by
  unfold isdir at h
  rw [lookup_append] at h
  cases hp : lookup p fs with
  | none => rw [hp] at h; exact Bool.noConfusion h
  | some t =>
    rw [hp] at h
    cases t with
    | file => exact Bool.noConfusion h
    | dir cs =>
      refine ⟨cs, rfl, ?_⟩
      have h' : (match lookup [n] (FSTree.dir cs) with
          | some (FSTree.dir _) => true
          | _ => false) = true := h
      cases hl : lookup [n] (FSTree.dir cs) with
      | none => rw [hl] at h'; exact Bool.noConfusion h'
      | some t =>
        rw [hl] at h'
        cases t with
        | file => exact Bool.noConfusion h'
        | dir cs' =>
          obtain ⟨e, hmem, hname, he2⟩ := lookup_singleton_child cs n _ hl
          exact ⟨e, hmem, hname, cs', he2⟩

/-- A child that is a directory appears in `dirNames`. -/
theorem mem_dirNames_of_child (cs : List (String × FSTree)) (e : String × FSTree)
    (he : e ∈ cs) (cs' : List (String × FSTree)) (hd : e.2 = FSTree.dir cs') :
    e.1 ∈ dirNames cs := by
  unfold dirNames
  refine List.mem_map.2 ⟨e, List.mem_filter.2 ⟨he, ?_⟩, rfl⟩
  rw [hd]

/-- The walk of a directory starts with the entry for the root itself. -/
theorem walk_of_dir (fs : FSTree) (root : Path) (cs : List (String × FSTree))
    (h : lookup root fs = some (.dir cs)) :
    walk fs root = (root, dirNames cs, fileNames cs) :: walkChildren cs root := by
  unfold walk
  rw [h]
  rfl

/-- If no walked entry lists `Include` among its subdirectories, the root has
no immediate `Include` child directory. -/
theorem no_include_child (fs : FSTree) (root : Path)
    (h : ∀ e ∈ walk fs root, "Include" ∉ e.2.1) :
    isdir fs (root ++ ["Include"]) = false := by
  by_contra hne
  have hd : isdir fs (root ++ ["Include"]) = true := by
    cases hv : isdir fs (root ++ ["Include"]) with
    | true => rfl
    | false => exact absurd hv hne
  obtain ⟨cs, hcs, e, hmem, hname, cs', hdir⟩ := isdir_child_structure fs root "Include" hd
  have hw := walk_of_dir fs root cs hcs
  have hhead : ((root, dirNames cs, fileNames cs) : Path × List String × List String)
      ∈ walk fs root := by rw [hw]; exact List.mem_cons_self _ _
  have := h _ hhead
  exact this (hname ▸ mem_dirNames_of_child cs e hmem cs' hdir)

/-- If no name in the list has an existing directory under `root`, the named
search returns nothing. -/
theorem named_search_none (fs : FSTree) (root : Path) (accept : Bool)
    (l : List String) (h : ∀ n ∈ l, isdir fs (root ++ [n]) = false) :
    named_search fs root accept l = none := by
  induction l with
  | nil => rfl
  | cons n rest ih =>
    have hn := h n (List.mem_cons_self _ _)
    unfold named_search
    simp only [hn, Bool.false_eq_true, if_false]
    exact ih (fun m hm => h m (List.mem_cons_of_mem _ hm))

/-- If no walked entry lists `Include` or holds a `.isc` file, the fallback
walk finds nothing. -/
theorem fallback_walk_none (fs : FSTree) (root : Path)
    (h : ∀ e ∈ walk fs root, "Include" ∉ e.2.1 ∧ ∀ f ∈ e.2.2, endswith_isc f = false) :
    fallback_walk fs root = none := by
  unfold fallback_walk
  rw [List.findSome?_eq_none_iff]
  intro e he
  obtain ⟨h1, h2⟩ := h e he
  have ha : e.2.2.any endswith_isc = false :=
    List.any_eq_false.2 (fun f hf => by simp [h2 f hf])
  simp [ha, h1]

/-- If additionally no walked entry holds a `.isc` file, step 1's content
check fails. -/
theorem any_isc_under_false (fs : FSTree) (root : Path)
    (h : ∀ e ∈ walk fs root, ∀ f ∈ e.2.2, endswith_isc f = false) :
    any_isc_under fs root = false := by
  unfold any_isc_under
  exact List.any_eq_false.2 (fun e he => by
    simp only [Bool.not_eq_true]
    exact List.any_eq_false.2 (fun f hf => by simp [h e he f hf]))

/-- C6: on a root with no conventional-named subfolder and no `Include`
marker or recognized-extension (`.isc`/`.clr`) file anywhere beneath it,
`find_sectorfile_dir` fails with `NotFound`, and `run` maps that failure to
the generic unhandled-error code 10 — not to the structural codes 2 or 3. -/
theorem c6_discovery_notfound_maps_to_10 (env : Env) (fs : FSTree)
    (aurora repo : Path) (force dry_run : Bool)
    (hnames : ∀ n ∈ conventional_names, isdir fs (aurora_root aurora ++ [n]) = false)
    (hwalk : ∀ e ∈ walk fs (aurora_root aurora),
      "Include" ∉ e.2.1 ∧
      ∀ f ∈ e.2.2, lowerEndsWith f ext_isc = false ∧ lowerEndsWith f ext_clr = false) :
    find_sectorfile_dir fs (aurora_root aurora) true =
      .error (.notFound (aurora_root aurora)) ∧
    (run env fs aurora repo force dry_run).1 = 10 := by
  have hext : ∀ e ∈ walk fs (aurora_root aurora), ∀ f ∈ e.2.2, endswith_isc f = false :=
    fun e he f hf => ((hwalk e he).2 f hf).1
  have hInc : isdir fs (aurora_root aurora ++ ["Include"]) = false :=
    no_include_child fs _ (fun e he => (hwalk e he).1)
  have hIsc : any_isc_under fs (aurora_root aurora) = false :=
    any_isc_under_false fs _ hext
  have hNamed : named_search fs (aurora_root aurora) true conventional_names = none :=
    named_search_none fs _ true conventional_names hnames
  have hFall : fallback_walk fs (aurora_root aurora) = none :=
    fallback_walk_none fs _ (fun e he => ⟨(hwalk e he).1, hext e he⟩)
  have hfind : find_sectorfile_dir fs (aurora_root aurora) true =
      .error (.notFound (aurora_root aurora)) := by
    unfold find_sectorfile_dir
    rw [hInc, hIsc, hNamed, hFall]
    simp
  exact ⟨hfind, by simp [run, hfind]⟩

/-- C6 witness: a concrete root holding only an unrelated text file makes
discovery fail and the whole run return 10. -/
theorem c6_witness :
    (∀ n ∈ conventional_names, isdir fsPlain (aurora_root ["a"] ++ [n]) = false) ∧
    (∀ e ∈ walk fsPlain (aurora_root ["a"]),
      "Include" ∉ e.2.1 ∧
      ∀ f ∈ e.2.2, lowerEndsWith f ext_isc = false ∧ lowerEndsWith f ext_clr = false) ∧
    find_sectorfile_dir fsPlain (aurora_root ["a"]) true =
      .error (.notFound (aurora_root ["a"])) ∧
    (run envAll fsPlain ["a"] ["r"] false false).1 = 10 := by
  refine ⟨by decide, by decide, ?_⟩
  exact c6_discovery_notfound_maps_to_10 envAll fsPlain ["a"] ["r"] false false
    (by decide) (by decide)

/-! ### Claim C1 -/

/-- C1 counterexample: with destination alias `A/Include/COnew` already
present and `force = false`, the run returns 10 (not 0) and its trace holds
only the two `makedirs` calls — no junction is attempted for the other alias
`COnew_2` and file linking never runs, because `create_conew_junctions`
raises `FileExistsError` instead of catching it locally. -/
theorem c1_counterexample :
    pathExists fsAliasTaken ["A", "Include", "COnew"] = true ∧
    run envAll fsAliasTaken ["A"] ["R"] false false =
      (10, [FSOp.makedirs ["A", "Include"], FSOp.makedirs ["A", "Include"]]) ∧
    (run envAll fsAliasTaken ["A"] ["R"] false false).1 ≠ 0 ∧
    (run envAll fsAliasTaken ["A"] ["R"] false false).2.all
      (fun op => !op.isJunction) = true := by
  exact ⟨rfl, rfl, by decide, rfl⟩

/-- C1 (amended): when a destination alias path (`COnew` or `COnew_2`)
already exists and `force` is false, `create_conew_junctions` raises
`FileExistsError` at that alias instead of catching it locally; the aliases
are processed in order, so a pre-existing `COnew` aborts before any junction
is attempted, while a pre-existing `COnew_2` alone aborts after the `COnew`
junction attempt; in either case the exception propagates to `run`'s
top-level handler, file linking is never attempted (no link mechanism and no
copy appears in the trace), and the result code is 10, not 0. -/
theorem c1_alias_exists_aborts_run (env : Env) (fs : FSTree) (aurora repo sd sm : Path)
    (hfind : find_sectorfile_dir fs (aurora_root aurora) true = .ok sd)
    (hres : resolve_src_main fs repo = some sm)
    (hconew : isdir fs (sm ++ ["Include", "COnew"]) = true)
    (hex : pathExists fs (sd ++ ["Include", "COnew"]) = true ∨
      pathExists fs (sd ++ ["Include", "COnew_2"]) = true) :
    (run env fs aurora repo false false).1 = 10 ∧
    (run env fs aurora repo false false).2.all
      (fun op => !op.isMechanism && !op.isCopy) = true ∧
    (pathExists fs (sd ++ ["Include", "COnew"]) = true →
      run env fs aurora repo false false =
        (10, [FSOp.makedirs (sd ++ ["Include"]), FSOp.makedirs (sd ++ ["Include"])])) ∧
    (pathExists fs (sd ++ ["Include", "COnew"]) = false →
      run env fs aurora repo false false =
        (10, [FSOp.makedirs (sd ++ ["Include"]), FSOp.makedirs (sd ++ ["Include"]),
          FSOp.junction (sd ++ ["Include", "COnew"]) (sm ++ ["Include", "COnew"])])) := by
  cases hex1 : pathExists fs (sd ++ ["Include", "COnew"]) with
  | true =>
    have hjun : create_conew_junctions env fs (sm ++ ["Include", "COnew"])
        (sd ++ ["Include"]) false =
        (.error (.fileExists (sd ++ ["Include", "COnew"])),
          [.makedirs (sd ++ ["Include"])]) := by
      unfold create_conew_junctions conew_alias
      simp [hex1]
    have hrun : run env fs aurora repo false false =
        (10, [FSOp.makedirs (sd ++ ["Include"]), FSOp.makedirs (sd ++ ["Include"])]) := by
      simp [run, hfind, hres, hconew, hjun]
    exact ⟨by rw [hrun], by rw [hrun]; rfl, fun _ => hrun,
      fun hcontra => Bool.noConfusion hcontra⟩
  | false =>
    have hex2 : pathExists fs (sd ++ ["Include", "COnew_2"]) = true := by
      rcases hex with h | h
      · rw [hex1] at h
        exact Bool.noConfusion h
      · exact h
    have hjun : create_conew_junctions env fs (sm ++ ["Include", "COnew"])
        (sd ++ ["Include"]) false =
        (.error (.fileExists (sd ++ ["Include", "COnew_2"])),
          [.makedirs (sd ++ ["Include"]),
            .junction (sd ++ ["Include", "COnew"]) (sm ++ ["Include", "COnew"])]) := by
      unfold create_conew_junctions conew_alias
      simp [hex1, hex2]
    have hrun : run env fs aurora repo false false =
        (10, [FSOp.makedirs (sd ++ ["Include"]), FSOp.makedirs (sd ++ ["Include"]),
          FSOp.junction (sd ++ ["Include", "COnew"]) (sm ++ ["Include", "COnew"])]) := by
      simp [run, hfind, hres, hconew, hjun]
    exact ⟨by rw [hrun], by rw [hrun]; rfl,
      fun hcontra => Bool.noConfusion hcontra, fun _ => hrun⟩

/-- C1 witness: both occupied-alias layouts exercised concretely — a taken
`COnew` aborts with no junction attempted, a taken `COnew_2` aborts after the
`COnew` junction attempt. -/
theorem c1_witness :
    pathExists fsAliasTaken (["A"] ++ ["Include", "COnew"]) = true ∧
    run envAll fsAliasTaken ["A"] ["R"] false false =
      (10, [FSOp.makedirs (["A"] ++ ["Include"]), FSOp.makedirs (["A"] ++ ["Include"])]) ∧
    pathExists fsAlias2Taken (["A"] ++ ["Include", "COnew"]) = false ∧
    run envAll fsAlias2Taken ["A"] ["R"] false false =
      (10, [FSOp.makedirs (["A"] ++ ["Include"]), FSOp.makedirs (["A"] ++ ["Include"]),
        FSOp.junction (["A"] ++ ["Include", "COnew"]) (["R"] ++ ["Include", "COnew"])]) :=
  ⟨rfl,
   (c1_alias_exists_aborts_run envAll fsAliasTaken ["A"] ["R"] ["A"] ["R"]
      rfl rfl rfl (Or.inl rfl)).2.2.1 rfl,
   rfl,
   (c1_alias_exists_aborts_run envAll fsAlias2Taken ["A"] ["R"] ["A"] ["R"]
      rfl rfl rfl (Or.inr rfl)).2.2.2 rfl⟩

/-! ### Claim C8 -/

/-- C8 counterexample: a dry-run on an empty filesystem does not return the
success code 0 — discovery fails and the run returns 10 (with a bad repo it
would return 2), so "dry-run still returns 0" does not hold unconditionally. -/
theorem c8_counterexample :
    (run envAll fsEmpty ["a"] ["r"] false true).1 = 10 ∧
    (run envAll fsEmpty ["a"] ["r"] false true).1 ≠ 0 := by
  exact ⟨rfl, by decide⟩

/-- C8 (amended): a dry-run performs zero filesystem mutations regardless of
`force` — its trace of attempted mutating OS calls is empty on every path —
and returns 0 whenever the structural checks (discovery, repo main folder,
shared source directory) pass. -/
theorem c8_dry_run_no_mutations (env : Env) (fs : FSTree) (aurora repo : Path)
    (force : Bool) :
    (run env fs aurora repo force true).2 = [] ∧
    (∀ sd sm, find_sectorfile_dir fs (aurora_root aurora) true = .ok sd →
      resolve_src_main fs repo = some sm →
      isdir fs (sm ++ ["Include", "COnew"]) = true →
      run env fs aurora repo force true = (0, [])) := by
  constructor
  · cases hf : find_sectorfile_dir fs (aurora_root aurora) true with
    | error e => simp [run, hf]
    | ok sd =>
      cases hr : resolve_src_main fs repo with
      | none => simp [run, hf, hr]
      | some sm =>
        cases hco : isdir fs (sm ++ ["Include", "COnew"]) with
        | false => simp [run, hf, hr, hco]
        | true => simp [run, hf, hr, hco]
  · intro sd sm hf hr hco
    simp [run, hf, hr, hco]

/-- C8 witness: a dry-run with `force = true` on a concrete valid layout
mutates nothing and returns 0. -/
theorem c8_witness :
    (run envAll fsGood ["A"] ["R"] true true).2 = [] ∧
    run envAll fsGood ["A"] ["R"] true true = (0, []) :=
  ⟨(c8_dry_run_no_mutations envAll fsGood ["A"] ["R"] true).1,
   (c8_dry_run_no_mutations envAll fsGood ["A"] ["R"] true).2 ["A"] ["R"] rfl rfl rfl⟩

/-! ### Claim C9 -/

/-- C9 counterexample: `x.Clr` carries a letter-case variant of the
recognized `.clr` extension, and `link_top_level_files_once`'s selection test
accepts it, but `find_sectorfile_dir`'s content checks do not recognize it at
all (they look only for `.isc`): a root containing only `x.Clr` fails
discovery. -/
theorem c9_counterexample :
    ext_selected "x.Clr" = true ∧
    endswith_isc "x.Clr" = false ∧
    find_sectorfile_dir fsClrCase ["r"] true = .error (.notFound ["r"]) := by
  exact ⟨rfl, rfl, rfl⟩

/-- Lowercasing maps no character other than `'.'` to `'.'`. -/
theorem toLower_eq_dot_iff (c : Char) : Char.toLower c = '.' ↔ c = '.' := by
  constructor
  · intro h
    simp only [Char.toLower] at h
    split at h
    · exfalso
      rename_i hr
      obtain ⟨hr1, hr2⟩ := hr
      have hv : (c.toNat + 32).isValidChar := by
        left
        omega
      have ht : (Char.ofNat (c.toNat + 32)).toNat = c.toNat + 32 := by
        rw [Char.ofNat, dif_pos hv]
        rfl
      rw [h] at ht
      have h46 : ('.' : Char).toNat = 46 := rfl
      omega
    · exact h
  · intro h
    subst h
    rfl

/-- The dot test commutes with lowercasing. -/
theorem toLower_beq_dot (c : Char) : (Char.toLower c == '.') = (c == '.') := by
  cases hc : c == '.' with
  | true =>
    have hceq : c = '.' := eq_of_beq hc
    subst hceq
    rfl
  | false =>
    cases hl : Char.toLower c == '.' with
    | false => rfl
    | true =>
      have h1 : Char.toLower c = '.' := eq_of_beq hl
      have h2 : c = '.' := (toLower_eq_dot_iff c).1 h1
      rw [h2] at hc
      simp at hc

/-- Two character lists equal after lowercasing find their first dot at the
same position. -/
theorem findIdx_dot_congr (l₁ : List Char) :
    ∀ (l₂ : List Char) (i : Nat), l₁.map Char.toLower = l₂.map Char.toLower →
    l₁.findIdx? (fun c => c == '.') i = l₂.findIdx? (fun c => c == '.') i := by
  induction l₁ with
  | nil =>
    intro l₂ i h
    cases l₂ with
    | nil => rfl
    | cons b t => simp at h
  | cons a t ih =>
    intro l₂ i h
    cases l₂ with
    | nil => simp at h
    | cons b t₂ =>
      simp only [List.map_cons, List.cons.injEq] at h
      obtain ⟨h1, h2⟩ := h
      have hd : (a == '.') = (b == '.') := by
        rw [← toLower_beq_dot a, ← toLower_beq_dot b, h1]
      rw [List.findIdx?_cons, List.findIdx?_cons, hd, ih t₂ (i + 1) h2]

/-- Two character lists equal after lowercasing agree on the
some-non-dot-character test. -/
theorem any_notdot_congr (l₁ : List Char) :
    ∀ l₂ : List Char, l₁.map Char.toLower = l₂.map Char.toLower →
    l₁.any (fun c => !(c == '.')) = l₂.any (fun c => !(c == '.')) := by
  induction l₁ with
  | nil =>
    intro l₂ h
    cases l₂ with
    | nil => rfl
    | cons b t => simp at h
  | cons a t ih =>
    intro l₂ h
    cases l₂ with
    | nil => simp at h
    | cons b t₂ =>
      simp only [List.map_cons, List.cons.injEq] at h
      obtain ⟨h1, h2⟩ := h
      have hd : (a == '.') = (b == '.') := by
        rw [← toLower_beq_dot a, ← toLower_beq_dot b, h1]
      simp only [List.any_cons, hd, ih t₂ h2]

/-- Two character lists equal after lowercasing have their last dot at the
same index. -/
theorem last_dot_index_congr (l₁ l₂ : List Char)
    (h : l₁.map Char.toLower = l₂.map Char.toLower) :
    last_dot_index l₁ = last_dot_index l₂ := by
  unfold last_dot_index
  have hr : l₁.reverse.map Char.toLower = l₂.reverse.map Char.toLower := by
    rw [List.map_reverse, List.map_reverse, h]
  have hlen : l₁.length = l₂.length := by
    have := congrArg List.length h
    simpa using this
  rw [findIdx_dot_congr l₁.reverse l₂.reverse 0 hr, hlen]

/-- The extracted extension, lowercased, depends only on the lowercased file
name. -/
theorem splitext_lower_congr (n m : String) (h : lowerStr n = lowerStr m) :
    (splitext_ext n).map Char.toLower = (splitext_ext m).map Char.toLower := by
  unfold splitext_ext
  have h' : n.toList.map Char.toLower = m.toList.map Char.toLower := h
  rw [last_dot_index_congr n.toList m.toList h']
  cases hi : last_dot_index m.toList with
  | none => rfl
  | some i =>
    have htake : (n.toList.take i).any (fun c => !(c == '.')) =
        (m.toList.take i).any (fun c => !(c == '.')) := by
      apply any_notdot_congr
      rw [List.map_take, List.map_take, h']
    simp only [htake]
    cases hcond : (m.toList.take i).any (fun c => !(c == '.')) with
    | false => simp
    | true =>
      simp only [if_true]
      rw [List.map_drop, List.map_drop, h']

/-- C9 (amended): extension recognition is case-insensitive at each use site
for the extensions that site actually checks — two names equal after
lowercasing are treated identically by `link_top_level_files_once`'s
selection test (which recognizes `.isc` and `.clr`) and by
`find_sectorfile_dir`'s content test (which recognizes only `.isc`); a
letter-case variant of `.clr` is accepted by the former and ignored by the
latter. -/
theorem c9_case_insensitive_each_site (n m : String) (h : lowerStr n = lowerStr m) :
    ext_selected n = ext_selected m ∧ endswith_isc n = endswith_isc m := by
  constructor
  · unfold ext_selected
    rw [splitext_lower_congr n m h]
  · unfold endswith_isc lowerEndsWith
    rw [h]

/-- C9 witness: `A.ISC` and `a.isc` are treated identically by both tests. -/
theorem c9_witness :
    lowerStr "A.ISC" = lowerStr "a.isc" ∧
    ext_selected "A.ISC" = ext_selected "a.isc" ∧
    endswith_isc "A.ISC" = endswith_isc "a.isc" :=
  ⟨rfl, (c9_case_insensitive_each_site "A.ISC" "a.isc" rfl).1,
    (c9_case_insensitive_each_site "A.ISC" "a.isc" rfl).2⟩

/-! ### Claim C7 -/

/-- C7: `_create_file_link` attempts the mechanisms strictly in the order
hard link, symbolic link, `mklink /H`, stopping at the first success; it
succeeds exactly when one of the three does, and its trace never contains a
content copy. -/
theorem c7_link_mechanism_order (env : Env) (fs : FSTree) (src dst : Path) :
    (create_file_link env fs src dst).2.filter FSOp.isMechanism =
      (if env.hardlinkOk src dst then [FSOp.hardlink src dst]
       else if env.symlinkOk src dst then [FSOp.hardlink src dst, FSOp.symlink src dst]
       else [FSOp.hardlink src dst, FSOp.symlink src dst, FSOp.mklinkH src dst]) ∧
    (create_file_link env fs src dst).1 =
      (env.hardlinkOk src dst || env.symlinkOk src dst || env.mklinkHOk src dst) ∧
    (create_file_link env fs src dst).2.all (fun op => !op.isCopy) = true := by
  unfold create_file_link
  cases h1 : env.hardlinkOk src dst <;> cases h2 : env.symlinkOk src dst <;>
    cases h3 : env.mklinkHOk src dst <;> cases h4 : pathExists fs dst <;>
    simp [h4, FSOp.isMechanism, FSOp.isCopy]

/-! ### Claim C10 -/

/-- The `all` predicate distributes over a branch between two literal lists. -/
theorem all_ite (c : Bool) (a b : List FSOp) (p : FSOp → Bool) :
    (if c then a else b).all p = if c then a.all p else b.all p := by
  cases c <;> rfl

/-- Every operation attempted by `create_file_link` writes to `dst`. -/
theorem create_file_link_written_all (env : Env) (fs : FSTree) (src dst : Path) :
    (create_file_link env fs src dst).2.all (fun op => op.written == dst) = true := by
  unfold create_file_link
  cases h1 : env.hardlinkOk src dst <;> cases h2 : env.symlinkOk src dst <;>
    cases h3 : env.mklinkHOk src dst <;> cases h4 : pathExists fs dst <;>
    simp [h1, h2, h3, h4, FSOp.written]

/-- Membership form of `create_file_link_written_all`. -/
theorem create_file_link_written (env : Env) (fs : FSTree) (src dst : Path)
    (op : FSOp) (hop : op ∈ (create_file_link env fs src dst).2) :
    op.written = dst := by
  have h := create_file_link_written_all env fs src dst
  rw [List.all_eq_true] at h
  simpa using h op hop

/-- Every operation attempted by `create_conew_junctions` writes to the
target `Include` directory or below it. -/
theorem create_conew_junctions_written_all (env : Env) (fs : FSTree)
    (src target : Path) (force : Bool) :
    (create_conew_junctions env fs src target force).2.all
      (fun op => target.isPrefixOf op.written) = true := by
  unfold create_conew_junctions conew_alias
  cases hf : force <;>
    cases he1 : pathExists fs (target ++ ["COnew"]) <;>
    cases hd1 : isdir fs (target ++ ["COnew"]) <;>
    cases he2 : pathExists fs (target ++ ["COnew_2"]) <;>
    cases hd2 : isdir fs (target ++ ["COnew_2"]) <;>
    simp [hf, he1, hd1, he2, hd2, FSOp.written, List.prefix_append]

/-- Membership form of `create_conew_junctions_written_all`. -/
theorem create_conew_junctions_written (env : Env) (fs : FSTree)
    (src target : Path) (force : Bool) (op : FSOp)
    (hop : op ∈ (create_conew_junctions env fs src target force).2) :
    target <+: op.written := by
  have h := create_conew_junctions_written_all env fs src target force
  rw [List.all_eq_true] at h
  simpa using h op hop

/-- Every operation attempted for one directory entry writes to that entry's
destination path. -/
theorem link_file_step_written_all (env : Env) (fs : FSTree) (sm dir : Path)
    (force : Bool) (name : String) :
    (link_file_step env fs sm dir force name).2.all
      (fun op => op.written == dir ++ [name]) = true := by
  unfold link_file_step
  cases h1 : isfile fs (sm ++ [name]) <;>
    cases h2 : ext_selected name <;>
    cases h3 : pathExists fs (dir ++ [name]) <;>
    cases h4 : force <;>
    simp [h1, h2, h3, h4, FSOp.written, all_ite, create_file_link_written_all] <;>
    exact fun x hx => create_file_link_written _ _ _ _ x hx

/-- Every operation of the file-linking pass writes to some entry under the
sectorfile directory. -/
theorem link_go_written (env : Env) (fs : FSTree) (sm dir : Path) (force : Bool)
    (l : List String) (op : FSOp)
    (hop : op ∈ (link_files_go env fs sm dir force l).2) :
    ∃ name, op.written = dir ++ [name] := by
  induction l with
  | nil => simp [link_files_go] at hop
  | cons a t ih =>
    simp only [link_files_go] at hop
    rcases List.mem_append.1 hop with h | h
    · refine ⟨a, ?_⟩
      have hall := link_file_step_written_all env fs sm dir force a
      rw [List.all_eq_true] at hall
      simpa using hall op h
    · exact ih h

/-- Every mutating OS call attempted by `run` writes at or below the resolved
sectorfile destination directory. -/
theorem run_writes_under_sd (env : Env) (fs : FSTree) (aurora repo : Path)
    (force dry_run : Bool) (sd : Path)
    (hfind : find_sectorfile_dir fs (aurora_root aurora) true = .ok sd)
    (op : FSOp) (hop : op ∈ (run env fs aurora repo force dry_run).2) :
    sd <+: op.written := by
  cases hr : resolve_src_main fs repo with
  | none => simp [run, hfind, hr] at hop
  | some sm =>
    cases hco : isdir fs (sm ++ ["Include", "COnew"]) with
    | false => simp [run, hfind, hr, hco] at hop
    | true =>
      cases dry_run with
      | true => simp [run, hfind, hr, hco] at hop
      | false =>
        cases hj : create_conew_junctions env fs (sm ++ ["Include", "COnew"])
            (sd ++ ["Include"]) force with
        | mk res tj =>
          have hsd : sd <+: sd ++ ["Include"] := List.prefix_append sd ["Include"]
          cases res with
          | error e2 =>
            simp [run, hfind, hr, hco, hj] at hop
            rcases hop with rfl | hop
            · exact hsd
            · refine hsd.trans (create_conew_junctions_written env fs (sm ++ ["Include", "COnew"])
                (sd ++ ["Include"]) force op ?_)
              rw [hj]; exact hop
          | ok created =>
            simp [run, hfind, hr, hco, hj] at hop
            rcases hop with rfl | hop | hop
            · exact hsd
            · refine hsd.trans (create_conew_junctions_written env fs (sm ++ ["Include", "COnew"])
                (sd ++ ["Include"]) force op ?_)
              rw [hj]; exact hop
            · obtain ⟨name, hw⟩ := link_go_written env fs sm sd force (listdir fs sm) op
                (by simpa [link_top_level_files_once] using hop)
              rw [hw]; exact List.prefix_append sd [name]

/-- C10 counterexample: when the install path and the repo path resolve to
the same tree `R` and `force` is true, the run removes entries under the
source main folder itself — `os.remove` hits the source `.isc` file and
`shutil.rmtree` hits the shared source directory — so the source tree is not
read-only. -/
theorem c10_counterexample :
    resolve_src_main fsAliased ["R"] = some ["R"] ∧
    FSOp.remove ["R", "a.isc"] ∈ (run envAll fsAliased ["R"] ["R"] true false).2 ∧
    (["R"] : Path) <+: ["R", "a.isc"] ∧
    FSOp.rmtree ["R", "Include", "COnew"] ∈ (run envAll fsAliased ["R"] ["R"] true false).2 := by
  refine ⟨rfl, by decide, ⟨["a.isc"], rfl⟩, by decide⟩

/-- Any tree whose path is disjoint from the resolved destination directory
(neither a prefix of the other) is untouched by the run. -/
theorem run_untouched_outside (env : Env) (fs : FSTree) (aurora repo : Path)
    (force dry_run : Bool) (sd p : Path)
    (hfind : find_sectorfile_dir fs (aurora_root aurora) true = .ok sd)
    (h1 : ¬ p <+: sd) (h2 : ¬ sd <+: p) :
    ∀ op ∈ (run env fs aurora repo force dry_run).2, ¬ p <+: op.written := by
  intro op hop hcon
  have hw := run_writes_under_sd env fs aurora repo force dry_run sd hfind op hop
  have hcomp := List.prefix_or_prefix_of_prefix hcon hw
  rcases hcomp with h | h
  · exact h1 h
  · exact h2 h

/-- C10 (amended): every removal and creation performed during a run targets
only paths at or under the resolved sectorfile destination directory;
consequently any tree disjoint from the destination (neither path a prefix
of the other) is untouched — in particular the source main folder when it is
disjoint from the destination, and the whole repo tree when the repo path is
disjoint from the destination.  When the paths alias (destination equal to
the source main folder under `force`, or the destination inside the repo
tree), entries under the source or repo tree can be mutated. -/
theorem c10_mutations_under_destination (env : Env) (fs : FSTree)
    (aurora repo : Path) (force dry_run : Bool) (sd sm : Path)
    (hfind : find_sectorfile_dir fs (aurora_root aurora) true = .ok sd)
    (_hres : resolve_src_main fs repo = some sm) :
    (∀ op ∈ (run env fs aurora repo force dry_run).2, sd <+: op.written) ∧
    (¬ sm <+: sd → ¬ sd <+: sm →
      ∀ op ∈ (run env fs aurora repo force dry_run).2, ¬ sm <+: op.written) ∧
    (¬ repo <+: sd → ¬ sd <+: repo →
      ∀ op ∈ (run env fs aurora repo force dry_run).2, ¬ repo <+: op.written) :=
  ⟨fun op hop => run_writes_under_sd env fs aurora repo force dry_run sd hfind op hop,
   fun h1 h2 => run_untouched_outside env fs aurora repo force dry_run sd sm hfind h1 h2,
   fun h1 h2 => run_untouched_outside env fs aurora repo force dry_run sd repo hfind h1 h2⟩

/-- C10 witness: on the disjoint concrete layout, the run's `makedirs` call
is under the destination `A`, and neither it nor the junction call touches
the source/repo tree `R`. -/
theorem c10_witness :
    (¬ (["R"] : Path) <+: ["A"]) ∧
    (["A"] : Path) <+: (FSOp.makedirs ["A", "Include"]).written ∧
    (¬ (["R"] : Path) <+: (FSOp.makedirs ["A", "Include"]).written) ∧
    ¬ (["R"] : Path) <+:
      (FSOp.junction ["A", "Include", "COnew"] ["R", "Include", "COnew"]).written :=
  ⟨by decide,
   (c10_mutations_under_destination envAll fsGood ["A"] ["R"] false false ["A"] ["R"]
      rfl rfl).1 _ (by decide),
   (c10_mutations_under_destination envAll fsGood ["A"] ["R"] false false ["A"] ["R"]
      rfl rfl).2.1 (by decide) (by decide) _ (by decide),
   (c10_mutations_under_destination envAll fsGood ["A"] ["R"] false false ["A"] ["R"]
      rfl rfl).2.2 (by decide) (by decide) _ (by decide)⟩

end Installer
